import Mathlib

/-!
Shallow embedding of the Bybit spread-monitor bot (src/index.js, first file
variant, the one the spec adopts: non-blocking notification, cache-fallback
reference price).

Conventions of the embedding:
* JS numbers that flow through `parseFloat` are modelled as `Option ℚ`:
  `none` stands for `NaN` (non-numeric or missing field), `some q` for a
  finite numeric value.
* `Date.now()` timestamps are `ℤ` (epoch milliseconds).
* The three JS `Map`s of the global `state` object are association lists
  with the observable `get` / `set` / `has` / `delete` behaviour of a JS Map.
* A processed tick returns the successor state together with the list of
  Telegram notifications dispatched during that tick (`Event`s).
-/

namespace BybitSpread

/-- Trade direction label, `'LONG'` / `'SHORT'` in the source. -/
inductive Direction : Type
  | long : Direction
  | short : Direction
deriving DecidableEq

/-- One entry of `state.activeSignals`:
`{ direction, entryTime: Date.now(), entrySpread: spread }`. -/
structure Signal : Type where
  direction : Direction
  entryTime : ℤ
  entrySpread : ℚ
deriving DecidableEq

/-- A ticker payload after `parseFloat` of its price fields:
`data.symbol`, `parseFloat(data.lastPrice)`, `parseFloat(data.indexPrice)`.
`none` models a `NaN` parse result (missing or non-numeric field). -/
structure Tick : Type where
  symbol : String
  lastPrice : Option ℚ
  indexPrice : Option ℚ
deriving DecidableEq

/-- A Telegram notification dispatched by `processTickerData`:
`formatEntry(symbol, direction, lastPrice, indexPrice, spread)` or
`formatExit(symbol, sig.direction, lastPrice, indexPrice, spread, sig.entrySpread)`. -/
inductive Event : Type
  | entry (symbol : String) (direction : Direction)
      (lastPrice indexPrice spread : ℚ) : Event
  | exit (symbol : String) (direction : Direction)
      (lastPrice indexPrice spread entrySpread : ℚ) : Event
deriving DecidableEq

/-- `Map.prototype.get`: first binding of the key, if any. -/
def mapGet {α : Type} : List (String × α) → String → Option α
  | [], _ => none
  | (k', v) :: rest, k => if k' = k then some v else mapGet rest k

/-- `Map.prototype.set`: overwrite the existing binding in place, else append. -/
def mapSet {α : Type} : List (String × α) → String → α → List (String × α)
  | [], k, v => [(k, v)]
  | (k', v') :: rest, k, v =>
      if k' = k then (k, v) :: rest else (k', v') :: mapSet rest k v

/-- `Map.prototype.delete`: remove the bindings of the key. -/
def mapDelete {α : Type} : List (String × α) → String → List (String × α)
  | [], _ => []
  | (k', v') :: rest, k =>
      if k' = k then mapDelete rest k else (k', v') :: mapDelete rest k

/-- The numeric/behavioural configuration surface (`CONFIG` in the source). -/
structure Config : Type where
  entryThreshold : ℚ
  exitThreshold : ℚ
  cooldownMs : ℤ
  maxConnections : ℕ
  batchSize : ℕ
deriving DecidableEq

/-- The mutable global `state` maps touched by tick processing:
`activeSignals`, `lastSignalTime`, `lastIndexPrice`. -/
structure BotState : Type where
  activeSignals : List (String × Signal)
  lastSignalTime : List (String × ℤ)
  lastIndexPrice : List (String × ℚ)
deriving DecidableEq

/-- `Math.abs` on the rationals (kernel-computable). -/
def absQ (q : ℚ) : ℚ := if q < 0 then -q else q

/-- `calcSpread(lastPrice, indexPrice)` (src/index.js line 57):
`if (!lastPrice || !indexPrice || indexPrice === 0) return 0;`
a `NaN` (`none`) or zero operand is falsy and yields `0`; otherwise
`((lastPrice - indexPrice) / indexPrice) * 100`. -/
def calcSpread : Option ℚ → Option ℚ → ℚ
  | some l, some i => if l = 0 ∨ i = 0 then 0 else ((l - i) / i) * 100
  | _, _ => 0

/-- `const direction = lastPrice < indexPrice ? 'LONG' : 'SHORT'`
(src/index.js line 104). -/
def getDirection (lastPrice indexPrice : ℚ) : Direction :=
  if lastPrice < indexPrice then Direction.long else Direction.short

/-- Reference-price resolution with cache write-through
(src/index.js lines 93–98): a parsed `indexPrice` that is a number `> 0`
is stored in `state.lastIndexPrice` and used; otherwise the cached value
is used (`none` if the cache has no entry).  Returns
(resolved index price, successor cache). -/
def resolveReferencePrice (cache : List (String × ℚ)) (symbol : String) :
    Option ℚ → Option ℚ × List (String × ℚ)
  | some i =>
      if 0 < i then (some i, mapSet cache symbol i)
      else (mapGet cache symbol, cache)
  | none => (mapGet cache symbol, cache)

/-- `processTickerData(data)` (src/index.js lines 88–130), with the three
`Date.now()` reads modelled by the single parameter `now`.  Returns the
successor state and the notifications dispatched during the tick. -/
def processTickerData (cfg : Config) (now : ℤ) (st : BotState) (t : Tick) :
    BotState × List Event :=
  match t.lastPrice, (resolveReferencePrice st.lastIndexPrice t.symbol t.indexPrice).1 with
  | some lastPrice, some indexPrice =>
    if t.symbol = "" then
      (⟨st.activeSignals, st.lastSignalTime,
        (resolveReferencePrice st.lastIndexPrice t.symbol t.indexPrice).2⟩, [])
    else
      match mapGet st.activeSignals t.symbol with
      | none =>
          if cfg.entryThreshold ≤ absQ (calcSpread (some lastPrice) (some indexPrice)) ∧
             cfg.cooldownMs ≤ now - (mapGet st.lastSignalTime t.symbol).getD 0 then
            (⟨mapSet st.activeSignals t.symbol
                ⟨getDirection lastPrice indexPrice, now,
                 calcSpread (some lastPrice) (some indexPrice)⟩,
              mapSet st.lastSignalTime t.symbol now,
              (resolveReferencePrice st.lastIndexPrice t.symbol t.indexPrice).2⟩,
             [Event.entry t.symbol (getDirection lastPrice indexPrice)
                lastPrice indexPrice (calcSpread (some lastPrice) (some indexPrice))])
          else
            (⟨st.activeSignals, st.lastSignalTime,
              (resolveReferencePrice st.lastIndexPrice t.symbol t.indexPrice).2⟩, [])
      | some sig =>
          if absQ (calcSpread (some lastPrice) (some indexPrice)) ≤ cfg.exitThreshold then
            (⟨mapDelete st.activeSignals t.symbol, st.lastSignalTime,
              (resolveReferencePrice st.lastIndexPrice t.symbol t.indexPrice).2⟩,
             [Event.exit t.symbol sig.direction lastPrice indexPrice
                (calcSpread (some lastPrice) (some indexPrice)) sig.entrySpread])
          else
            (⟨st.activeSignals, st.lastSignalTime,
              (resolveReferencePrice st.lastIndexPrice t.symbol t.indexPrice).2⟩, [])
  | _, _ =>
      (⟨st.activeSignals, st.lastSignalTime,
        (resolveReferencePrice st.lastIndexPrice t.symbol t.indexPrice).2⟩, [])

/-- Recognises an Entry notification. -/
def isEntryEvent : Event → Bool
  | Event.entry _ _ _ _ _ => true
  | Event.exit _ _ _ _ _ _ => false

/-- Number of Entry notifications in a dispatched batch. -/
def countEntries (evs : List Event) : ℕ :=
  (evs.filter isEntryEvent).length

/-- `Math.ceil(a / b)` on non-negative integers. -/
def ceilDiv (a b : ℕ) : ℕ := (a + b - 1) / b

/-- The batching loop of `subscribeToSymbols` (src/index.js lines 144–148):
`for (let i = 0; i < symbols.length; i += BATCH_SIZE) batches.push(symbols.slice(i, i + BATCH_SIZE))`.
(With `B = 0` the JS loop never terminates; the embedding returns `[]` there,
a case outside every claim, which assumes `B ≥ 1`.) -/
def chunkBatches (B : ℕ) : List String → List (List String)
  | [] => []
  | x :: xs =>
      if _h : B = 0 then []
      else (x :: xs).take B :: chunkBatches B ((x :: xs).drop B)
  termination_by l => l.length
  decreasing_by
    simp only [List.length_drop, List.length_cons]
    omega

/-- The shard plan of `initializeWebSockets` (src/index.js lines 206–219):
`symbolsPerConnection = Math.ceil(symbols.length / MAX_WS_CONNECTIONS)`,
`actualConnections = Math.min(MAX_WS_CONNECTIONS, Math.ceil(symbols.length / BATCH_SIZE))`,
shard `i` = `symbols.slice(i * symbolsPerConnection, Math.min((i+1) * symbolsPerConnection, symbols.length))`. -/
def planShards (symbols : List String) (M B : ℕ) : List (List String) :=
  (List.range (min M (ceilDiv symbols.length B))).map
    (fun i => (symbols.drop (i * ceilDiv symbols.length M)).take (ceilDiv symbols.length M))

/-- Default configuration of the source (`CONFIG` with no env overrides):
entry 0.7 %, exit 0.5 %, cooldown 60 000 ms, 5 connections, batch 10. -/
def cfg0 : Config := ⟨7/10, 1/2, 60000, 5, 10⟩

/-- A recorded Active signal: LONG entered at time 0 with entry spread −1 %. -/
def sig0 : Signal := ⟨Direction.long, 0, -1⟩

/-- The empty bot state. -/
def st0 : BotState := ⟨[], [], []⟩

/-- A state where symbol `X` is Active (signal `sig0`), its last Entry was at
time 0, and the cached index price is 100. -/
def stActive : BotState := ⟨[("X", sig0)], [("X", 0)], [("X", 100)]⟩

/-- A tick for `X` quoting `lastPrice = 99`, `indexPrice = 100` (spread −1 %). -/
def tick99 : Tick := ⟨"X", some 99, some 100⟩

/-- A ten-symbol universe. -/
def sym10 : List String :=
  ["S0", "S1", "S2", "S3", "S4", "S5", "S6", "S7", "S8", "S9"]


theorem strX_ne_empty : ¬ ("X" : String) = "" := by decide

theorem mapGet_set_self {α : Type} (m : List (String × α)) (k : String) (v : α) :
    mapGet (mapSet m k v) k = some v := by
  induction m with
  | nil => simp [mapSet, mapGet]
  | cons p rest ih =>
      obtain ⟨k', v'⟩ := p
      by_cases h : k' = k
      · simp [mapSet, mapGet, h]
      · simp [mapSet, mapGet, h, ih]

theorem mapGet_delete_self {α : Type} (m : List (String × α)) (k : String) :
    mapGet (mapDelete m k) k = none := by
  induction m with
  | nil => simp [mapDelete, mapGet]
  | cons p rest ih =>
      obtain ⟨k', v'⟩ := p
      by_cases h : k' = k
      · simp [mapDelete, mapGet, h, ih]
      · simp [mapDelete, mapGet, h, ih]

theorem process_reject (cfg : Config) (now : ℤ) (st : BotState) (t : Tick)
    (h : t.symbol = "" ∨ t.lastPrice = none ∨
      (resolveReferencePrice st.lastIndexPrice t.symbol t.indexPrice).1 = none) :
    processTickerData cfg now st t =
      (⟨st.activeSignals, st.lastSignalTime,
        (resolveReferencePrice st.lastIndexPrice t.symbol t.indexPrice).2⟩, []) := by
  unfold processTickerData
  split
  · next l idx hl hr =>
      rcases h with hsym | hnone | hnone
      · rw [if_pos hsym]
      · rw [hnone] at hl; exact absurd hl (by simp)
      · rw [hnone] at hr; exact absurd hr (by simp)
  · rfl

theorem process_idle_eq (cfg : Config) (now : ℤ) (st : BotState) (t : Tick) (l idx : ℚ)
    (hl : t.lastPrice = some l)
    (hr : (resolveReferencePrice st.lastIndexPrice t.symbol t.indexPrice).1 = some idx)
    (hs : ¬ t.symbol = "")
    (hidle : mapGet st.activeSignals t.symbol = none) :
    processTickerData cfg now st t =
      if cfg.entryThreshold ≤ absQ (calcSpread (some l) (some idx)) ∧
         cfg.cooldownMs ≤ now - (mapGet st.lastSignalTime t.symbol).getD 0 then
        (⟨mapSet st.activeSignals t.symbol
            ⟨getDirection l idx, now, calcSpread (some l) (some idx)⟩,
          mapSet st.lastSignalTime t.symbol now,
          (resolveReferencePrice st.lastIndexPrice t.symbol t.indexPrice).2⟩,
         [Event.entry t.symbol (getDirection l idx) l idx (calcSpread (some l) (some idx))])
      else
        (⟨st.activeSignals, st.lastSignalTime,
          (resolveReferencePrice st.lastIndexPrice t.symbol t.indexPrice).2⟩, []) := by
  unfold processTickerData
  rw [hl, hr]
  simp only [if_neg hs, hidle]

theorem process_active_eq (cfg : Config) (now : ℤ) (st : BotState) (t : Tick)
    (l idx : ℚ) (sig : Signal)
    (hl : t.lastPrice = some l)
    (hr : (resolveReferencePrice st.lastIndexPrice t.symbol t.indexPrice).1 = some idx)
    (hs : ¬ t.symbol = "")
    (hactive : mapGet st.activeSignals t.symbol = some sig) :
    processTickerData cfg now st t =
      if absQ (calcSpread (some l) (some idx)) ≤ cfg.exitThreshold then
        (⟨mapDelete st.activeSignals t.symbol, st.lastSignalTime,
          (resolveReferencePrice st.lastIndexPrice t.symbol t.indexPrice).2⟩,
         [Event.exit t.symbol sig.direction l idx
            (calcSpread (some l) (some idx)) sig.entrySpread])
      else
        (⟨st.activeSignals, st.lastSignalTime,
          (resolveReferencePrice st.lastIndexPrice t.symbol t.indexPrice).2⟩, []) := by
  unfold processTickerData
  rw [hl, hr]
  simp only [if_neg hs, hactive]


/-- C1 (amended): a tick whose symbol is empty, whose traded price parses to
`NaN`, or whose reference price resolves to no value is rejected: the signal
map, the cooldown map and the emitted-event set are unchanged; and a tick with
traded price `0` always yields spread `0`. -/
theorem rejected_tick_state_unchanged (cfg : Config) (now : ℤ) (st : BotState) (t : Tick)
    (h : t.symbol = "" ∨ t.lastPrice = none ∨
      (resolveReferencePrice st.lastIndexPrice t.symbol t.indexPrice).1 = none) :
    (processTickerData cfg now st t).1.activeSignals = st.activeSignals ∧
    (processTickerData cfg now st t).1.lastSignalTime = st.lastSignalTime ∧
    (processTickerData cfg now st t).2 = [] ∧
    (∀ i : Option ℚ, calcSpread (some 0) i = 0) := by
  rw [process_reject cfg now st t h]
  refine ⟨rfl, rfl, rfl, ?_⟩
  intro i
  rcases i with _ | x <;> simp [calcSpread]

theorem rejected_tick_state_unchanged_witness :
    (processTickerData cfg0 7 st0 ⟨"X", none, some 100⟩).1.activeSignals =
      st0.activeSignals ∧
    (processTickerData cfg0 7 st0 ⟨"X", none, some 100⟩).1.lastSignalTime =
      st0.lastSignalTime ∧
    (processTickerData cfg0 7 st0 ⟨"X", none, some 100⟩).2 = [] ∧
    (∀ i : Option ℚ, calcSpread (some 0) i = 0) :=
  rejected_tick_state_unchanged cfg0 7 st0 ⟨"X", none, some 100⟩ (Or.inr (Or.inl rfl))

/-- C1 counterexample: symbol `X` is Active, the tick quotes traded price `0`
(non-positive) with reference `100`; the spread is `0`, yet the tick triggers
an Exit transition (the Active signal is removed and an Exit is emitted). -/
theorem nonpositive_traded_triggers_transition :
    calcSpread (some 0) (some 100) = 0 ∧
    (processTickerData cfg0 1000 stActive ⟨"X", some 0, some 100⟩).2 =
      [Event.exit "X" Direction.long 0 100 0 (-1)] ∧
    (processTickerData cfg0 1000 stActive ⟨"X", some 0, some 100⟩).1.activeSignals = [] ∧
    stActive.activeSignals ≠ [] := by
  have hmain : processTickerData cfg0 1000 stActive ⟨"X", some 0, some 100⟩ =
      (⟨[], [("X", 0)], [("X", 100)]⟩,
       [Event.exit "X" Direction.long 0 100 0 (-1)]) := by
    norm_num [processTickerData, resolveReferencePrice, calcSpread, absQ, mapGet, mapSet,
      mapDelete, stActive, sig0, cfg0, strX_ne_empty]
  refine ⟨by simp [calcSpread], ?_, ?_, by simp [stActive]⟩
  · rw [hmain]
  · rw [hmain]

/-- C3 (amended): `calcSpread` returns `0` whenever either operand is missing
(`NaN`) or equal to `0`; on any other pair, including negative prices, it
returns `((traded - reference) / reference) * 100`. -/
theorem calcSpread_characterization :
    (∀ i : Option ℚ, calcSpread none i = 0) ∧
    (∀ l : Option ℚ, calcSpread l none = 0) ∧
    (∀ i : Option ℚ, calcSpread (some 0) i = 0) ∧
    (∀ l : ℚ, calcSpread (some l) (some 0) = 0) ∧
    (∀ l i : ℚ, l ≠ 0 → i ≠ 0 →
      calcSpread (some l) (some i) = ((l - i) / i) * 100) := by
  refine ⟨?_, ?_, ?_, ?_, ?_⟩
  · intro i; rcases i with _ | x <;> rfl
  · intro l; rcases l with _ | x <;> rfl
  · intro i; rcases i with _ | x <;> simp [calcSpread]
  · intro l; simp [calcSpread]
  · intro l i hl hi; simp [calcSpread, hl, hi]

theorem calcSpread_characterization_witness :
    calcSpread (some 99) (some 100) = ((99 - 100) / 100) * 100 :=
  calcSpread_characterization.2.2.2.2 99 100 (by norm_num) (by norm_num)

/-- C3 counterexample: the traded price `-1` is non-positive, yet
`calcSpread(-1, 100)` is `-101`, not `0` (the guard tests falsiness, not
positivity). -/
theorem calcSpread_negative_not_zero :
    calcSpread (some (-1)) (some 100) = -101 ∧ ((-1 : ℚ) < 0) ∧ (-101 : ℚ) ≠ 0 := by
  norm_num [calcSpread]

/-- C5 (amended): for a valid tick of an Idle instrument, an Entry is emitted,
the state becomes `Active{direction, spread, now}` and the cooldown becomes
`now`, if and only if the absolute spread reaches the entry threshold and
`now - lastSignalAt ≥ cooldownMs`, where a missing cooldown record is treated
as `lastSignalAt = 0`. -/
theorem idle_entry_iff (cfg : Config) (now : ℤ) (st : BotState) (t : Tick) (l idx : ℚ)
    (hl : t.lastPrice = some l)
    (hr : (resolveReferencePrice st.lastIndexPrice t.symbol t.indexPrice).1 = some idx)
    (hs : ¬ t.symbol = "")
    (hidle : mapGet st.activeSignals t.symbol = none) :
    ((processTickerData cfg now st t).2 =
        [Event.entry t.symbol (getDirection l idx) l idx (calcSpread (some l) (some idx))] ∧
      mapGet (processTickerData cfg now st t).1.activeSignals t.symbol =
        some ⟨getDirection l idx, now, calcSpread (some l) (some idx)⟩ ∧
      mapGet (processTickerData cfg now st t).1.lastSignalTime t.symbol = some now)
    ↔ (cfg.entryThreshold ≤ absQ (calcSpread (some l) (some idx)) ∧
       cfg.cooldownMs ≤ now - (mapGet st.lastSignalTime t.symbol).getD 0) := by
  rw [process_idle_eq cfg now st t l idx hl hr hs hidle]
  by_cases hcond : cfg.entryThreshold ≤ absQ (calcSpread (some l) (some idx)) ∧
      cfg.cooldownMs ≤ now - (mapGet st.lastSignalTime t.symbol).getD 0
  · rw [if_pos hcond]
    constructor
    · intro _; exact hcond
    · intro _; exact ⟨rfl, mapGet_set_self _ _ _, mapGet_set_self _ _ _⟩
  · rw [if_neg hcond]
    constructor
    · intro hcontra; exact absurd hcontra.1 (by simp)
    · intro hc; exact absurd hc hcond

theorem idle_entry_iff_witness :
    ((processTickerData cfg0 60000 st0 tick99).2 =
        [Event.entry tick99.symbol (getDirection 99 100) 99 100
          (calcSpread (some 99) (some 100))] ∧
      mapGet (processTickerData cfg0 60000 st0 tick99).1.activeSignals tick99.symbol =
        some ⟨getDirection 99 100, 60000, calcSpread (some 99) (some 100)⟩ ∧
      mapGet (processTickerData cfg0 60000 st0 tick99).1.lastSignalTime tick99.symbol =
        some 60000)
    ↔ (cfg0.entryThreshold ≤ absQ (calcSpread (some 99) (some 100)) ∧
       cfg0.cooldownMs ≤ 60000 - (mapGet st0.lastSignalTime tick99.symbol).getD 0) :=
  idle_entry_iff cfg0 60000 st0 tick99 99 100 rfl
    (by norm_num [resolveReferencePrice, st0, tick99]) (by decide) rfl

/-- C5 counterexample: symbol `X` has no cooldown record, is Idle, and the
spread (−1 %) clears the 0.7 % entry threshold, yet at `now = 0` (with the
default 60 000 ms cooldown) no Entry is emitted: the code reads a missing
cooldown record as `lastSignalAt = 0` and `0 - 0 < 60000`, while the claim
says a missing record always satisfies the cooldown condition. -/
theorem missing_cooldown_blocks_early_entry :
    mapGet st0.lastSignalTime "X" = none ∧
    mapGet st0.activeSignals "X" = none ∧
    cfg0.entryThreshold ≤ absQ (calcSpread (some 99) (some 100)) ∧
    (processTickerData cfg0 0 st0 tick99).2 = [] := by
  refine ⟨rfl, rfl, by norm_num [calcSpread, absQ, cfg0], ?_⟩
  norm_num [processTickerData, resolveReferencePrice, calcSpread, absQ, mapGet, mapSet,
    st0, tick99, cfg0, strX_ne_empty]

/-- C6: for a valid tick of an Active instrument, the cooldown map is never
touched; an Exit carrying the recorded entry spread and the current spread is
emitted and the instrument becomes Idle if and only if the absolute spread is
at most the exit threshold (no cooldown condition is involved); otherwise
nothing changes. -/
theorem active_exit_iff (cfg : Config) (now : ℤ) (st : BotState) (t : Tick)
    (l idx : ℚ) (sig : Signal)
    (hl : t.lastPrice = some l)
    (hr : (resolveReferencePrice st.lastIndexPrice t.symbol t.indexPrice).1 = some idx)
    (hs : ¬ t.symbol = "")
    (hactive : mapGet st.activeSignals t.symbol = some sig) :
    (processTickerData cfg now st t).1.lastSignalTime = st.lastSignalTime ∧
    (((processTickerData cfg now st t).2 =
        [Event.exit t.symbol sig.direction l idx
          (calcSpread (some l) (some idx)) sig.entrySpread] ∧
      mapGet (processTickerData cfg now st t).1.activeSignals t.symbol = none)
      ↔ absQ (calcSpread (some l) (some idx)) ≤ cfg.exitThreshold) ∧
    (¬ absQ (calcSpread (some l) (some idx)) ≤ cfg.exitThreshold →
      (processTickerData cfg now st t).1.activeSignals = st.activeSignals ∧
      (processTickerData cfg now st t).2 = []) := by
  rw [process_active_eq cfg now st t l idx sig hl hr hs hactive]
  by_cases hcond : absQ (calcSpread (some l) (some idx)) ≤ cfg.exitThreshold
  · rw [if_pos hcond]
    refine ⟨rfl, ?_, ?_⟩
    · constructor
      · intro _; exact hcond
      · intro _; exact ⟨rfl, mapGet_delete_self _ _⟩
    · intro hc; exact absurd hcond hc
  · rw [if_neg hcond]
    refine ⟨rfl, ?_, ?_⟩
    · constructor
      · intro hcontra; exact absurd hcontra.1 (by simp)
      · intro hc; exact absurd hc hcond
    · intro _; exact ⟨rfl, rfl⟩

theorem active_exit_iff_witness :
    (processTickerData cfg0 5 stActive ⟨"X", some 100, some 100⟩).1.lastSignalTime =
      stActive.lastSignalTime ∧
    (((processTickerData cfg0 5 stActive ⟨"X", some 100, some 100⟩).2 =
        [Event.exit "X" sig0.direction 100 100
          (calcSpread (some 100) (some 100)) sig0.entrySpread] ∧
      mapGet (processTickerData cfg0 5 stActive ⟨"X", some 100, some 100⟩).1.activeSignals
        "X" = none)
      ↔ absQ (calcSpread (some 100) (some 100)) ≤ cfg0.exitThreshold) ∧
    (¬ absQ (calcSpread (some 100) (some 100)) ≤ cfg0.exitThreshold →
      (processTickerData cfg0 5 stActive ⟨"X", some 100, some 100⟩).1.activeSignals =
        stActive.activeSignals ∧
      (processTickerData cfg0 5 stActive ⟨"X", some 100, some 100⟩).2 = []) :=
  active_exit_iff cfg0 5 stActive ⟨"X", some 100, some 100⟩ 100 100 sig0 rfl
    (by norm_num [resolveReferencePrice, stActive]) (by decide)
    (by simp [mapGet, stActive])


theorem process_cache (cfg : Config) (now : ℤ) (st : BotState) (t : Tick) :
    (processTickerData cfg now st t).1.lastIndexPrice =
      (resolveReferencePrice st.lastIndexPrice t.symbol t.indexPrice).2 := by
  unfold processTickerData
  split
  · split_ifs with hs
    all_goals
      rcases hsig : mapGet st.activeSignals t.symbol with _ | sig <;>
        simp only [hsig]
  · rfl

theorem no_entry_of_active (cfg : Config) (now : ℤ) (st : BotState) (t : Tick)
    (sig : Signal) (h : mapGet st.activeSignals t.symbol = some sig) :
    countEntries ((processTickerData cfg now st t).2) = 0 := by
  rcases hl : t.lastPrice with _ | l
  · rw [process_reject cfg now st t (Or.inr (Or.inl hl))]
    rfl
  · rcases hr : (resolveReferencePrice st.lastIndexPrice t.symbol t.indexPrice).1 with _ | idx
    · rw [process_reject cfg now st t (Or.inr (Or.inr hr))]
      rfl
    · by_cases hs : t.symbol = ""
      · rw [process_reject cfg now st t (Or.inl hs)]
        rfl
      · rw [process_active_eq cfg now st t l idx sig hl hr hs h]
        split_ifs <;> rfl

theorem entry_requires (cfg : Config) (now : ℤ) (st : BotState) (t : Tick)
    (h : 1 ≤ countEntries ((processTickerData cfg now st t).2)) :
    mapGet st.activeSignals t.symbol = none ∧
    cfg.cooldownMs ≤ now - (mapGet st.lastSignalTime t.symbol).getD 0 := by
  rcases hl : t.lastPrice with _ | l
  · rw [process_reject cfg now st t (Or.inr (Or.inl hl))] at h
    simp [countEntries] at h
  rcases hr : (resolveReferencePrice st.lastIndexPrice t.symbol t.indexPrice).1 with _ | idx
  · rw [process_reject cfg now st t (Or.inr (Or.inr hr))] at h
    simp [countEntries] at h
  by_cases hs : t.symbol = ""
  · rw [process_reject cfg now st t (Or.inl hs)] at h
    simp [countEntries] at h
  rcases hsig : mapGet st.activeSignals t.symbol with _ | sig
  · rw [process_idle_eq cfg now st t l idx hl hr hs hsig] at h
    by_cases hcond : cfg.entryThreshold ≤ absQ (calcSpread (some l) (some idx)) ∧
        cfg.cooldownMs ≤ now - (mapGet st.lastSignalTime t.symbol).getD 0
    · exact ⟨hsig.symm ▸ rfl, hcond.2⟩

    · rw [if_neg hcond] at h
      simp [countEntries] at h
  · rw [process_active_eq cfg now st t l idx sig hl hr hs hsig] at h
    split_ifs at h <;> simp [countEntries, isEntryEvent] at h

/-- C7: a valid positive incoming reference price is stored in the cache and
used; an invalid or missing one falls back to the cached value; with no cached
value the tick is rejected (no signal change, no cooldown change, no event);
and a tick missing the reference field right after a tick that supplied a
valid positive reference resolves to that cached value. -/
theorem referencePrice_resolution :
    (∀ (cache : List (String × ℚ)) (s : String) (i : ℚ), 0 < i →
        resolveReferencePrice cache s (some i) = (some i, mapSet cache s i)) ∧
    (∀ (cache : List (String × ℚ)) (s : String) (i : ℚ), ¬ 0 < i →
        resolveReferencePrice cache s (some i) = (mapGet cache s, cache)) ∧
    (∀ (cache : List (String × ℚ)) (s : String),
        resolveReferencePrice cache s none = (mapGet cache s, cache)) ∧
    (∀ (cfg : Config) (now : ℤ) (st : BotState) (t : Tick),
        (resolveReferencePrice st.lastIndexPrice t.symbol t.indexPrice).1 = none →
        (processTickerData cfg now st t).1.activeSignals = st.activeSignals ∧
        (processTickerData cfg now st t).1.lastSignalTime = st.lastSignalTime ∧
        (processTickerData cfg now st t).2 = []) ∧
    (∀ (cfg : Config) (now : ℤ) (st : BotState) (t1 t2 : Tick) (r : ℚ), 0 < r →
        t1.indexPrice = some r → t2.symbol = t1.symbol → t2.indexPrice = none →
        (resolveReferencePrice (processTickerData cfg now st t1).1.lastIndexPrice
          t2.symbol t2.indexPrice).1 = some r) := by
  refine ⟨?_, ?_, ?_, ?_, ?_⟩
  · intro cache s i hi; simp [resolveReferencePrice, hi]
  · intro cache s i hi; simp [resolveReferencePrice, hi]
  · intro cache s; rfl
  · intro cfg now st t h
    rw [process_reject cfg now st t (Or.inr (Or.inr h))]
    exact ⟨rfl, rfl, rfl⟩
  · intro cfg now st t1 t2 r hr h1 hsym h2
    simp only [h2, resolveReferencePrice]
    rw [process_cache, h1]
    simp only [resolveReferencePrice, if_pos hr]
    rw [hsym]
    exact mapGet_set_self _ _ _

theorem referencePrice_resolution_witness :
    resolveReferencePrice [] "X" (some 100) = (some 100, mapSet [] "X" 100) :=
  referencePrice_resolution.1 [] "X" 100 (by norm_num)

/-- C8: a first qualifying tick of an Idle instrument emits exactly one Entry;
a second tick for the same instrument processed next (in particular one within
the cooldown window) emits no Entry; and in general an Entry is only emitted
when the instrument is Idle and its cooldown (missing record read as 0) has
elapsed. -/
theorem cooldown_single_entry (cfg : Config) (now1 now2 : ℤ) (stA : BotState)
    (t1 t2 : Tick) (l idx : ℚ)
    (hl : t1.lastPrice = some l)
    (hr : (resolveReferencePrice stA.lastIndexPrice t1.symbol t1.indexPrice).1 = some idx)
    (hs : ¬ t1.symbol = "")
    (hidle : mapGet stA.activeSignals t1.symbol = none)
    (hth : cfg.entryThreshold ≤ absQ (calcSpread (some l) (some idx)))
    (hcd : cfg.cooldownMs ≤ now1 - (mapGet stA.lastSignalTime t1.symbol).getD 0)
    (hsym : t2.symbol = t1.symbol)
    (hwithin : now2 - now1 < cfg.cooldownMs) :
    countEntries ((processTickerData cfg now1 stA t1).2) = 1 ∧
    countEntries ((processTickerData cfg now2 (processTickerData cfg now1 stA t1).1 t2).2) = 0 ∧
    (∀ (cfg' : Config) (now : ℤ) (st : BotState) (t : Tick),
        1 ≤ countEntries ((processTickerData cfg' now st t).2) →
        mapGet st.activeSignals t.symbol = none ∧
        cfg'.cooldownMs ≤ now - (mapGet st.lastSignalTime t.symbol).getD 0) := by
  have hmain := process_idle_eq cfg now1 stA t1 l idx hl hr hs hidle
  rw [if_pos ⟨hth, hcd⟩] at hmain
  refine ⟨?_, ?_, ?_⟩
  · rw [hmain]; rfl
  · refine no_entry_of_active cfg now2 _ t2
      ⟨getDirection l idx, now1, calcSpread (some l) (some idx)⟩ ?_
    simp only [hmain, hsym]
    exact mapGet_set_self _ _ _
  · intro cfg' now st t h
    exact entry_requires cfg' now st t h

theorem cooldown_single_entry_witness :
    countEntries ((processTickerData cfg0 60000 st0 tick99).2) = 1 ∧
    countEntries ((processTickerData cfg0 60001
      (processTickerData cfg0 60000 st0 tick99).1 tick99).2) = 0 :=
  ⟨(cooldown_single_entry cfg0 60000 60001 st0 tick99 tick99 99 100 rfl
      (by norm_num [resolveReferencePrice, st0, tick99]) (by decide) rfl
      (by norm_num [calcSpread, absQ, cfg0])
      (by norm_num [mapGet, st0, cfg0, tick99, Option.getD])
      rfl (by norm_num [cfg0])).1,
   (cooldown_single_entry cfg0 60000 60001 st0 tick99 tick99 99 100 rfl
      (by norm_num [resolveReferencePrice, st0, tick99]) (by decide) rfl
      (by norm_num [calcSpread, absQ, cfg0])
      (by norm_num [mapGet, st0, cfg0, tick99, Option.getD])
      rfl (by norm_num [cfg0])).2.1⟩


/-- C9: for strictly positive traded and reference prices, the direction is
Long exactly when traded < reference (equality classifies as Short), and the
computed spread is negative exactly when the direction is Long. -/
theorem direction_spread_sign (l i : ℚ) (hl : 0 < l) (hi : 0 < i) :
    (getDirection l i = Direction.long ↔ l < i) ∧
    (l = i → getDirection l i = Direction.short) ∧
    (calcSpread (some l) (some i) < 0 ↔ getDirection l i = Direction.long) := by
  have hl0 : l ≠ 0 := ne_of_gt hl
  have hi0 : i ≠ 0 := ne_of_gt hi
  have hspread : calcSpread (some l) (some i) = ((l - i) / i) * 100 := by
    simp [calcSpread, hl0, hi0]
  have hdir : getDirection l i = Direction.long ↔ l < i := by
    unfold getDirection
    split_ifs with h
    · simp [h]
    · simp [h]
  refine ⟨hdir, ?_, ?_⟩
  · intro he
    unfold getDirection
    rw [if_neg (by rw [he]; exact lt_irrefl i)]
  · rw [hspread, hdir]
    constructor
    · intro hneg
      by_contra hge
      push_neg at hge
      have hnn : 0 ≤ ((l - i) / i) * 100 := by
        apply mul_nonneg
        · exact div_nonneg (by linarith) (le_of_lt hi)
        · norm_num
      linarith
    · intro hlt
      have h1 : (l - i) / i < 0 := div_neg_of_neg_of_pos (by linarith) hi
      exact mul_neg_of_neg_of_pos h1 (by norm_num)

theorem direction_spread_sign_witness :
    (getDirection 99 100 = Direction.long ↔ (99 : ℚ) < 100) ∧
    ((99 : ℚ) = 100 → getDirection 99 100 = Direction.short) ∧
    (calcSpread (some 99) (some 100) < 0 ↔ getDirection 99 100 = Direction.long) :=
  direction_spread_sign 99 100 (by norm_num) (by norm_num)

/-- C10: an Exit notification always carries the direction recorded in the
Active signal at Entry time, not the direction recomputed from the exiting
tick's prices; concretely, a LONG signal entered at spread −1 % exits on a
tick whose prices now classify as SHORT, and the emitted Exit still says
LONG. -/
theorem exit_reports_entry_direction (cfg : Config) (now : ℤ) (st : BotState) (t : Tick)
    (l idx : ℚ) (sig : Signal)
    (hl : t.lastPrice = some l)
    (hr : (resolveReferencePrice st.lastIndexPrice t.symbol t.indexPrice).1 = some idx)
    (hs : ¬ t.symbol = "")
    (hactive : mapGet st.activeSignals t.symbol = some sig)
    (hexit : absQ (calcSpread (some l) (some idx)) ≤ cfg.exitThreshold) :
    (processTickerData cfg now st t).2 =
      [Event.exit t.symbol sig.direction l idx
        (calcSpread (some l) (some idx)) sig.entrySpread] ∧
    (getDirection (502/5) 100 = Direction.short ∧
      (processTickerData cfg0 61000 stActive ⟨"X", some (502/5), some 100⟩).2 =
        [Event.exit "X" Direction.long (502/5) 100 (2/5) (-1)]) := by
  refine ⟨?_, ?_, ?_⟩
  · rw [process_active_eq cfg now st t l idx sig hl hr hs hactive, if_pos hexit]
  · norm_num [getDirection]
  · norm_num [processTickerData, resolveReferencePrice, calcSpread, absQ, mapGet, mapSet,
      mapDelete, stActive, sig0, cfg0, strX_ne_empty]

theorem exit_reports_entry_direction_witness :
    (processTickerData cfg0 61000 stActive ⟨"X", some (502/5), some 100⟩).2 =
      [Event.exit "X" sig0.direction (502/5) 100
        (calcSpread (some (502/5)) (some 100)) sig0.entrySpread] :=
  (exit_reports_entry_direction cfg0 61000 stActive ⟨"X", some (502/5), some 100⟩
    (502/5) 100 sig0 rfl (by norm_num [resolveReferencePrice, stActive])
    (by decide) (by simp [mapGet, stActive])
    (by norm_num [calcSpread, absQ, cfg0])).1

/-- C2 failing input: with universe `[A, B]`, `maxConnections = 2` and
`batchSize = 2`, the planner creates a single shard `[A]`: the concatenation
of the shards is `[A]`, so symbol `B` of the universe is never subscribed. -/
theorem planner_omits_symbols_bug :
    planShards ["A", "B"] 2 2 = [["A"]] ∧
    (planShards ["A", "B"] 2 2).flatten = ["A"] ∧
    "B" ∈ ["A", "B"] ∧ ¬ "B" ∈ (planShards ["A", "B"] 2 2).flatten := by
  refine ⟨by decide, by decide, by decide, by decide⟩

theorem ceilDiv_le_iff (a b k : ℕ) (hb : 0 < b) : ceilDiv a b ≤ k ↔ a ≤ k * b := by
  unfold ceilDiv
  rw [Nat.div_le_iff_le_mul_add_pred hb, Nat.mul_comm b k]
  generalize k * b = x
  omega

theorem le_ceilDiv_mul (a b : ℕ) (hb : 0 < b) : a ≤ ceilDiv a b * b :=
  (ceilDiv_le_iff a b (ceilDiv a b) hb).1 (le_refl _)

theorem one_le_ceilDiv (a b : ℕ) (ha : 1 ≤ a) (hb : 0 < b) : 1 ≤ ceilDiv a b := by
  by_contra h
  push_neg at h
  interval_cases hc : ceilDiv a b
  · have := (ceilDiv_le_iff a b 0 hb).1 (le_of_eq hc)
    omega

/-- C4 (amended): the planner creates exactly `min(M, ceil(U / B))` shards;
shard `i` (0-based) has exactly `min(ceil(U / M), U - i * ceil(U / M))`
instruments (sizing uses `maxConnections M`, not the shard count), so no
shard ever exceeds `ceil(U / M)`, which is at most the spec's target
`ceil(U / shardCount)`. -/
theorem planShards_count_and_sizes (s : List String) (M B : ℕ)
    (hM : 1 ≤ M) (hB : 1 ≤ B) (hU : 1 ≤ s.length) :
    (planShards s M B).length = min M (ceilDiv s.length B) ∧
    (∀ sh ∈ planShards s M B, sh.length ≤ ceilDiv s.length M) ∧
    (∀ i : ℕ, ∀ h : i < (planShards s M B).length,
      ((planShards s M B).get ⟨i, h⟩).length =
        min (ceilDiv s.length M) (s.length - i * ceilDiv s.length M)) ∧
    ceilDiv s.length M ≤ ceilDiv s.length (min M (ceilDiv s.length B)) := by
  refine ⟨?_, ?_, ?_, ?_⟩
  · simp [planShards]
  · intro sh hsh
    simp only [planShards, List.mem_map] at hsh
    obtain ⟨i, _, rfl⟩ := hsh
    exact List.length_take_le _ _
  · intro i h
    simp [planShards, List.length_take, List.length_drop]
  · have h1 : 1 ≤ ceilDiv s.length B := one_le_ceilDiv _ _ hU hB
    have hc : 0 < min M (ceilDiv s.length B) := lt_min hM h1
    refine (ceilDiv_le_iff _ _ _ hM).2 ?_
    calc s.length ≤ ceilDiv s.length (min M (ceilDiv s.length B)) *
          min M (ceilDiv s.length B) := le_ceilDiv_mul _ _ hc
      _ ≤ ceilDiv s.length (min M (ceilDiv s.length B)) * M :=
          Nat.mul_le_mul_left _ (min_le_left _ _)

theorem planShards_count_and_sizes_witness :
    (planShards sym10 3 5).length = min 3 (ceilDiv sym10.length 5) :=
  (planShards_count_and_sizes sym10 3 5 (by norm_num) (by norm_num) (by decide)).1

/-- C4 counterexample: with `U = 10`, `M = 3`, `B = 5` the planner creates
`min(3, ceil(10/5)) = 2` shards of sizes `[4, 4]` (each `ceil(10/3) = 4`),
whereas the claim's target `ceil(U / shardCount) = ceil(10/2) = 5` predicts a
non-last shard of exactly 5. -/
theorem planShards_nonlast_not_target :
    (planShards sym10 3 5).map List.length = [4, 4] ∧
    ceilDiv sym10.length (min 3 (ceilDiv sym10.length 5)) = 5 ∧ (4 : ℕ) ≠ 5 := by
  refine ⟨by decide, by decide, by decide⟩

end BybitSpread
